import Mathlib

/-!
Shallow embedding of the wpi-sched schedule-to-calendar converter.

The repository holds two copies of the `cmd` package: a newer one (with an
optional Instructor column and start-date weekday resolution) and an older
one.  Both are embedded below.  Rows of the spreadsheet are modelled as
`List (List String)`; the excelize reader, the CLI and the wasm bridge are
out of scope.  Go machine integers that can only hold small indices are
modelled as `Int` (the source uses `-1` as a sentinel); Go panics from
out-of-range slice indexing are modelled as an explicit error value.
-/

namespace WpiSched

/-- Go strings.Split with a one-character separator, over the character list. -/
def splitChAux (sep : Char) : List Char → List Char → List (List Char)
  | [], acc => [acc.reverse]
  | c :: cs, acc =>
    if c = sep then acc.reverse :: splitChAux sep cs []
    else splitChAux sep cs (c :: acc)

/-- Go strings.Split(s, sep) for the one-character separators used by the
source ("|" and "-"). -/
def goSplit (sep : Char) (s : String) : List String :=
  (splitChAux sep s.data []).map List.asString

/-- Whitespace recognized by Go unicode.IsSpace, restricted to ASCII (the only
characters the schedule data can contain that matter here). -/
def goIsSpace (c : Char) : Bool :=
  c = ' ' || c = '\t' || c = '\n' || c = '\r' || c = '\x0b' || c = '\x0c'

/-- Go strings.TrimSpace. -/
def goTrimSpace (s : String) : String :=
  (((s.data.dropWhile goIsSpace).reverse.dropWhile goIsSpace).reverse).asString

/-- Numeric value of an ASCII digit. -/
def digitVal (c : Char) : Option Nat :=
  if '0' ≤ c ∧ c ≤ '9' then some (c.toNat - '0'.toNat) else none

/-- Go time.Weekday. -/
inductive Weekday where
  | sunday
  | monday
  | tuesday
  | wednesday
  | thursday
  | friday
  | saturday
deriving DecidableEq

/-- Weekday from its Go ordinal (Sunday = 0). -/
def weekdayOfNat (n : Nat) : Weekday :=
  match n % 7 with
  | 0 => .sunday
  | 1 => .monday
  | 2 => .tuesday
  | 3 => .wednesday
  | 4 => .thursday
  | 5 => .friday
  | _ => .saturday

/-- Calendar date, proleptic Gregorian as used by Go package time. -/
structure Date where
  year : Nat
  month : Nat
  day : Nat
deriving DecidableEq

/-- Gregorian leap-year rule (Go isLeap). -/
def isLeap (y : Nat) : Bool :=
  y % 4 = 0 && (y % 100 ≠ 0 || y % 400 = 0)

/-- Days in a month (Go daysIn). -/
def daysInMonth (y m : Nat) : Nat :=
  if m = 2 then (if isLeap y then 29 else 28)
  else if m = 4 ∨ m = 6 ∨ m = 9 ∨ m = 11 then 30
  else 31

/-- Days strictly before the first of month `m` within year `y`. -/
def daysBeforeMonth (y m : Nat) : Nat :=
  let base : Nat :=
    match m with
    | 1 => 0
    | 2 => 31
    | 3 => 59
    | 4 => 90
    | 5 => 120
    | 6 => 151
    | 7 => 181
    | 8 => 212
    | 9 => 243
    | 10 => 273
    | 11 => 304
    | _ => 334
  if 2 < m ∧ isLeap y then base + 1 else base

/-- Ordinal day number of a date; 0001-01-01 has number 1. -/
def dayNumber (d : Date) : Nat :=
  365 * (d.year - 1) + (d.year - 1) / 4 - (d.year - 1) / 100 + (d.year - 1) / 400
    + daysBeforeMonth d.year d.month + d.day

/-- Weekday of a date, matching Go time.Time.Weekday (0001-01-01 was a Monday). -/
def weekday (d : Date) : Weekday :=
  weekdayOfNat (dayNumber d % 7)

/-- Successor date, matching Go AddDate(0, 0, 1) on a valid date. -/
def nextDay (d : Date) : Date :=
  if d.day < daysInMonth d.year d.month then ⟨d.year, d.month, d.day + 1⟩
  else if d.month < 12 then ⟨d.year, d.month + 1, 1⟩
  else ⟨d.year + 1, 1, 1⟩

/-- Iterated successor date. -/
def addDays : Nat → Date → Date
  | 0, d => d
  | n + 1, d => addDays n (nextDay d)

/-- Left-pad a numeral to two digits. -/
def pad2 (n : Nat) : String :=
  if n < 10 then "0" ++ toString n else toString n

/-- Left-pad a numeral to four digits. -/
def pad4 (n : Nat) : String :=
  if n < 10 then "000" ++ toString n
  else if n < 100 then "00" ++ toString n
  else if n < 1000 then "0" ++ toString n
  else toString n

/-- Go t.Format of layout 20060102. -/
def formatYYYYMMDD (d : Date) : String :=
  pad4 d.year ++ pad2 d.month ++ pad2 d.day

/-- Go time.Parse with layout 01-02-06: exactly two digits of month, a
hyphen, two digits of day, a hyphen, two digits of year; months 1..12, day
within the month, two-digit years 69..99 map to 19xx and 00..68 to 20xx. -/
def goParseDate (s : String) : Option Date :=
  match s.data with
  | [m1, m2, h1, d1, d2, h2, y1, y2] =>
    if h1 = '-' ∧ h2 = '-' then
      match digitVal m1, digitVal m2, digitVal d1, digitVal d2, digitVal y1, digitVal y2 with
      | some a, some b, some c, some e, some f, some g =>
        let month := 10 * a + b
        let day := 10 * c + e
        let yy := 10 * f + g
        let year := if 69 ≤ yy then 1900 + yy else 2000 + yy
        if 1 ≤ month ∧ month ≤ 12 ∧ 1 ≤ day ∧ day ≤ daysInMonth year month then
          some ⟨year, month, day⟩
        else none
      | _, _, _, _, _, _ => none
    else none
  | _ => none

/-- Go time.Parse with layout 3:04 PM: one or two digits of hour (0..12), a
colon, two digits of minute (0..59), a space, and an uppercase AM or PM
marker; the result is the 24-hour (hour, minute) pair. -/
def goParseTime12 (s : String) : Option (Nat × Nat) :=
  match s.data with
  | c1 :: rest =>
    match digitVal c1 with
    | none => none
    | some a =>
      let hr :=
        match rest with
        | c2 :: rest2 =>
          match digitVal c2 with
          | some b => (10 * a + b, rest2)
          | none => (a, rest)
        | [] => (a, rest)
      if 12 < hr.1 then none
      else
        match hr.2 with
        | ':' :: m1 :: m2 :: ' ' :: p1 :: p2 :: [] =>
          match digitVal m1, digitVal m2 with
          | some x, some y =>
            let minute := 10 * x + y
            if 59 < minute then none
            else if p1 = 'A' ∧ p2 = 'M' then
              some (if hr.1 = 12 then 0 else hr.1, minute)
            else if p1 = 'P' ∧ p2 = 'M' then
              some (if hr.1 < 12 then hr.1 + 12 else hr.1, minute)
            else none
          | _, _ => none
        | _ => none
  | [] => none

/-! ## Column constants and the course record (cmd package) -/

def MEETING_COL : String := "Meeting Patterns"

def DESC_COL : String := "Course Listing"

def START_DATE_COL : String := "Start Date"

def END_DATE_COL : String := "End Date"

def INSTRUCTOR_COL : String := "Instructor"

def TIMEZONE : String := "America/New_York"

/-- Course record built by GetCourses. -/
structure Course where
  Description : String
  Meeting : String
  StartDate : String
  EndDate : String
deriving DecidableEq

/-! ## getColumns (newer cmd package, src/wasm/main.go lines 133-175)

The Go `cols` map starts with the four required names bound to `-1`; the
Instructor key is only inserted when its header cell is seen, so it is
modelled as an `Option Int` (`none` = key absent, and a Go map read of an
absent key yields the zero value `0`). -/

structure Cols where
  meeting : Int
  desc : Int
  startDate : Int
  endDate : Int
  instructor : Option Int
deriving DecidableEq

def initCols : Cols := ⟨-1, -1, -1, -1, none⟩

/-- One iteration of the header-scan switch: cell `cell` at row `i`,
column `j`. -/
def applyHeaderCell (i j : Nat) (acc : Cols × Int) (cell : String) : Cols × Int :=
  if cell = DESC_COL then ({ acc.1 with desc := (j : Int) }, (i : Int) + 1)
  else if cell = MEETING_COL then ({ acc.1 with meeting := (j : Int) }, (i : Int) + 1)
  else if cell = START_DATE_COL then ({ acc.1 with startDate := (j : Int) }, (i : Int) + 1)
  else if cell = END_DATE_COL then ({ acc.1 with endDate := (j : Int) }, (i : Int) + 1)
  else if cell = INSTRUCTOR_COL then ({ acc.1 with instructor := some (j : Int) }, (i : Int) + 1)
  else acc

/-- Inner loop of getColumns over the cells of row `i`, starting at column
index `j`. -/
def scanHeaderRow (i : Nat) : Nat → Cols × Int → List String → Cols × Int
  | _, acc, [] => acc
  | j, acc, cell :: cells => scanHeaderRow i (j + 1) (applyHeaderCell i j acc cell) cells

/-- Outer loop of getColumns: scan rows from index `i`, stopping after the
first row that set startRow (made it different from -1). -/
def getColumnsAux : Nat → Cols × Int → List (List String) → Cols × Int
  | _, acc, [] => acc
  | i, acc, row :: rest =>
    let acc2 := scanHeaderRow i 0 acc row
    if acc2.2 ≠ -1 then acc2 else getColumnsAux (i + 1) acc2 rest

/-- Required columns still bound to the -1 sentinel.  Go iterates the map in
unspecified order and reports one arbitrary missing name; the model returns
all of them (in the declaration order of the map literal). -/
def missingColumns (c : Cols) : List String :=
  (if c.meeting = -1 then [MEETING_COL] else [])
    ++ (if c.desc = -1 then [DESC_COL] else [])
    ++ (if c.startDate = -1 then [START_DATE_COL] else [])
    ++ (if c.endDate = -1 then [END_DATE_COL] else [])

/-- getColumns: resolve the column indices and the first data row. -/
def getColumns (rows : List (List String)) : Except (List String) (Cols × Int) :=
  let acc := getColumnsAux 0 (initCols, -1) rows
  if missingColumns acc.1 = [] then .ok acc else .error (missingColumns acc.1)

/-- Errors of the extraction stage.  `indexOutOfRange` models the run-time
panic Go raises when a row is indexed past its length. -/
inductive ExtractErr where
  | columnNotFound (missing : List String)
  | indexOutOfRange
deriving DecidableEq

/-- Go row[i] with its bounds check: the panic is an explicit error. -/
def getCell (row : List String) (i : Int) : Except ExtractErr String :=
  if h : 0 ≤ i ∧ i.toNat < row.length then .ok (row.get ⟨i.toNat, h.2⟩)
  else .error .indexOutOfRange

/-- Data-row loop of GetCourses (src/wasm/main.go lines 196-211): stop at the
first row not longer than the End Date index, otherwise read the five cells
(the instructor read uses index 0 when the Instructor key was absent, exactly
as the Go map read does) and build one Course. -/
def buildCourses (descC instC meetC startC endC : Int) :
    List (List String) → Except ExtractErr (List Course)
  | [] => .ok []
  | row :: rest =>
    if (row.length : Int) ≤ endC then .ok []
    else do
      let d ← getCell row descC
      let inst ← getCell row instC
      let descStr := if inst ≠ "" then d ++ " - " ++ inst else d
      let meet ← getCell row meetC
      let sd ← getCell row startC
      let ed ← getCell row endC
      let cs ← buildCourses descC instC meetC startC endC rest
      .ok (⟨descStr, meet, sd, ed⟩ :: cs)

/-- GetCourses of the newer cmd package, over an already-read row list. -/
def GetCourses (rows : List (List String)) : Except ExtractErr (List Course) :=
  match getColumns rows with
  | .error missing => .error (.columnNotFound missing)
  | .ok (cols, startRow) =>
    buildCourses cols.desc (cols.instructor.getD 0) cols.meeting cols.startDate
      cols.endDate (rows.drop startRow.toNat)

/-- Course built from one sufficiently long row, used to state what the loop
produces. -/
def mkCourse (descC instC meetC startC endC : Int) (row : List String) : Course :=
  let d := row.getD descC.toNat ""
  let inst := row.getD instC.toNat ""
  ⟨if inst ≠ "" then d ++ " - " ++ inst else d,
    row.getD meetC.toNat "", row.getD startC.toNat "", row.getD endC.toNat ""⟩

/-! ## Event synthesis (newer cmd package, src/wasm/main.go lines 244-370) -/

/-- Error taxonomy of the synthesis stage.  The Go code carries fmt.Errorf
strings; the constructor records which parsing site produced the error. -/
inductive IcalErr where
  | patternError (msg : String)
  | dateError (value : String)
  | timeError (value : String)
deriving DecidableEq

/-- Fixed day-letter table of the newer GetIcal: recurrence code and Go
weekday ordinal. -/
def dayMap (s : String) : Option (String × Weekday) :=
  if s = "M" then some ("MO", .monday)
  else if s = "T" then some ("TU", .tuesday)
  else if s = "W" then some ("WE", .wednesday)
  else if s = "R" then some ("TH", .thursday)
  else if s = "F" then some ("FR", .friday)
  else none

/-- Day-token loop of the newer GetIcal: collect recurrence codes and
weekdays, failing at the first token outside the table. -/
def parseDays : List String → Except IcalErr (List String × List Weekday)
  | [] => .ok ([], [])
  | t :: ts =>
    match dayMap t with
    | none => .error (.patternError ("unable to parse day: " ++ t))
    | some cw => do
      let rest ← parseDays ts
      .ok (cw.1 :: rest.1, cw.2 :: rest.2)

/-- convertDate: MM-DD-YY input to YYYYMMDD output. -/
def convertDate (dateStr : String) : Except IcalErr String :=
  match goParseDate dateStr with
  | none => .error (.dateError dateStr)
  | some t => .ok (formatYYYYMMDD t)

/-- Body of the bounded advance loop in convertStartDate: up to `n` times,
stop when the weekday is valid, else move one day forward. -/
def resolveLoop (validDays : List Weekday) : Nat → Date → Date
  | 0, t => t
  | n + 1, t =>
    if validDays.contains (weekday t) then t
    else resolveLoop validDays n (nextDay t)

/-- convertStartDate: parse MM-DD-YY and advance at most 7 times to a valid
weekday (src/wasm/main.go lines 340-352). -/
def convertStartDate (dateStr : String) (validDays : List Weekday) : Except IcalErr String :=
  match goParseDate dateStr with
  | none => .error (.dateError dateStr)
  | some t => .ok (formatYYYYMMDD (resolveLoop validDays 7 t))

/-- convertTime: 12-hour clock HH:MM AM/PM to HHMMSS. -/
def convertTime (timeStr : String) : Except IcalErr String :=
  match goParseTime12 timeStr with
  | none => .error (.timeError timeStr)
  | some hm => .ok (pad2 hm.1 ++ pad2 hm.2 ++ "00")

/-- Alphanumeric ASCII characters kept by the UID regexp. -/
def isAlnum (c : Char) : Bool :=
  ('a' ≤ c ∧ c ≤ 'z') || ('A' ≤ c ∧ c ≤ 'Z') || ('0' ≤ c ∧ c ≤ '9')

/-- Replace every maximal run of non-alphanumeric characters by one
underscore (the regexp replacement in sanitizeUID); the flag records whether
we are inside such a run. -/
def collapseAux : Bool → List Char → List Char
  | _, [] => []
  | inRun, c :: cs =>
    if isAlnum c then c :: collapseAux false cs
    else if inRun then collapseAux true cs
    else '_' :: collapseAux true cs

/-- Strip leading and trailing underscores (Go strings.Trim(s, underscore)). -/
def trimUnderscores (l : List Char) : List Char :=
  (((l.dropWhile (· = '_')).reverse.dropWhile (· = '_')).reverse)

/-- sanitizeUID of the newer cmd package: sanitize description plus by-day
list and append the domain suffix. -/
def sanitizeUID (desc days : String) : String :=
  (trimUnderscores (collapseAux false (desc ++ days).data)).asString ++ "@wpi.edu"

/-- Field values of one emitted VEVENT block, in the order they are passed
to the format string.  The Go template writes the same start-date value into
both DTSTART and DTEND, so one field holds it. -/
structure VEvent where
  uid : String
  startDate : String
  startTime : String
  endTime : String
  summary : String
  location : String
  byDay : String
  untilDate : String
deriving DecidableEq

/-- Newer GetIcal, up to the final formatting: empty meeting pattern means no
event (ok none), otherwise parse the three pipe-delimited segments, the day
letters, the dates and the time range. -/
def GetIcalEvent (c : Course) : Except IcalErr (Option VEvent) :=
  if c.Meeting = "" then .ok none
  else
    let parsedMeet := goSplit '|' c.Meeting
    if parsedMeet.length < 3 then
      .error (.patternError "expected at least 3 parts")
    else do
      let freq := goTrimSpace (parsedMeet.getD 0 "")
      let days ← parseDays (goSplit '-' freq)
      let byDay := String.intercalate "," days.1
      let endDate ← convertDate c.EndDate
      let startDate ← convertStartDate c.StartDate days.2
      let times := goSplit '-' (goTrimSpace (parsedMeet.getD 1 ""))
      if times.length < 2 then
        .error (.patternError "expected at least 2 times")
      else do
        let startTime ← convertTime (goTrimSpace (times.getD 0 ""))
        let endTime ← convertTime (goTrimSpace (times.getD 1 ""))
        let location := goTrimSpace (parsedMeet.getD 2 "")
        .ok (some ⟨sanitizeUID c.Description byDay, startDate, startTime, endTime,
          c.Description, location, byDay, endDate⟩)

/-- The Sprintf template of the newer GetIcal, with the DTSTAMP value (taken
from time.Now in Go) passed in explicitly. -/
def renderEvent (e : VEvent) (dtstamp : String) : String :=
  "BEGIN:VEVENT\nUID:" ++ e.uid ++ "\nDTSTAMP:" ++ dtstamp
    ++ "\nDTSTART;TZID=" ++ TIMEZONE ++ ":" ++ e.startDate ++ "T" ++ e.startTime
    ++ "\nDTEND;TZID=" ++ TIMEZONE ++ ":" ++ e.startDate ++ "T" ++ e.endTime
    ++ "\nSUMMARY:" ++ e.summary
    ++ "\nLOCATION:" ++ e.location
    ++ "\nRRULE:FREQ=WEEKLY;BYDAY=" ++ e.byDay ++ ";UNTIL=" ++ e.untilDate ++ "T235959"
    ++ "\nBEGIN:VALARM\nTRIGGER:-PT15M\nACTION:DISPLAY\nDESCRIPTION:Reminder - "
    ++ e.summary ++ " starts soon\nEND:VALARM\nEND:VEVENT\n"

/-- Newer GetIcal: the string it hands to the writer. -/
def GetIcal (c : Course) (dtstamp : String) : Except IcalErr String :=
  match GetIcalEvent c with
  | .error e => .error e
  | .ok none => .ok ""
  | .ok (some ev) => .ok (renderEvent ev dtstamp)

/-- Calendar header written by WriteIcalBuf of the newer cmd package. -/
def CAL_HEADER : String := "BEGIN:VCALENDAR\nVERSION:2.0\nCALSCALE:GREGORIAN\n"

/-- Calendar footer written by WriteIcalBuf of the newer cmd package. -/
def CAL_FOOTER : String := "END:VCALENDAR\n"

/-- Event loop of WriteIcalBuf: bytes written after the header, plus the
first synthesis error if one occurred (from that point on nothing more is
written). -/
def writeEvents (dtstamp : String) : List Course → String × Option IcalErr
  | [] => ("", none)
  | c :: cs =>
    match GetIcal c dtstamp with
    | .error e => ("", some e)
    | .ok s =>
      let rest := writeEvents dtstamp cs
      (s ++ rest.1, rest.2)

/-- WriteIcalBuf over an in-memory buffer: everything written, plus the error
returned, if any.  On an error the footer is never written. -/
def WriteIcalBuf (courses : List Course) (dtstamp : String) : String × Option IcalErr :=
  let body := writeEvents dtstamp courses
  match body.2 with
  | some e => (CAL_HEADER ++ body.1, some e)
  | none => (CAL_HEADER ++ body.1 ++ CAL_FOOTER, none)

/-- Concatenation of a list of already-rendered blocks. -/
def joinAll : List String → String
  | [] => ""
  | s :: rest => s ++ joinAll rest

/-- Run GetIcal over a list of courses, collecting the rendered blocks or
stopping at the first error. -/
def runAll (dtstamp : String) : List Course → Except IcalErr (List String)
  | [] => .ok []
  | c :: cs => do
    let s ← GetIcal c dtstamp
    let rest ← runAll dtstamp cs
    .ok (s :: rest)

/-! ## Older cmd package (src/wasm/main.go lines 371-657)

The older GetIcal has no empty-pattern sentinel, keys the UID on the
description alone, converts the start date without weekday resolution, and
parses the end time from times[0] (the start-time token) - the embedding
reproduces that last line (line 592) verbatim. -/

/-- Fixed day-letter table of the older GetIcal. -/
def dayMapOld (s : String) : Option String :=
  if s = "M" then some "MO"
  else if s = "T" then some "TU"
  else if s = "W" then some "WE"
  else if s = "R" then some "TH"
  else if s = "F" then some "FR"
  else none

/-- Day-token loop of the older GetIcal. -/
def parseDaysOld : List String → Except IcalErr (List String)
  | [] => .ok []
  | t :: ts =>
    match dayMapOld t with
    | none => .error (.patternError ("unable to parse day: " ++ t))
    | some code => do
      let rest ← parseDaysOld ts
      .ok (code :: rest)

/-- sanitizeUID of the older cmd package: description only. -/
def sanitizeUIDOld (desc : String) : String :=
  (trimUnderscores (collapseAux false desc.data)).asString ++ "@wpi.edu"

/-- Older GetIcal, up to the final formatting. -/
def GetIcalEventOld (c : Course) : Except IcalErr VEvent :=
  let parsedMeet := goSplit '|' c.Meeting
  if parsedMeet.length < 3 then
    .error (.patternError "expected at least 3 parts")
  else do
    let freq := goTrimSpace (parsedMeet.getD 0 "")
    let codes ← parseDaysOld (goSplit '-' freq)
    let byDay := String.intercalate "," codes
    let times := goSplit '-' (goTrimSpace (parsedMeet.getD 1 ""))
    if times.length < 2 then
      .error (.patternError "expected at least 2 times")
    else do
      let startTime ← convertTime (goTrimSpace (times.getD 0 ""))
      let endTime ← convertTime (goTrimSpace (times.getD 0 ""))
      let endDateStr ← convertDate c.EndDate
      let startDateStr ← convertDate c.StartDate
      let location := goTrimSpace (parsedMeet.getD 2 "")
      .ok ⟨sanitizeUIDOld c.Description, startDateStr, startTime, endTime,
        c.Description, location, byDay, endDateStr⟩

/-! ## Predicates used in the statements -/

/-- Cell texts the header scan reacts to (the switch cases of getColumns). -/
def recognizedCell (s : String) : Bool :=
  s = DESC_COL || s = MEETING_COL || s = START_DATE_COL || s = END_DATE_COL
    || s = INSTRUCTOR_COL

/-- Column record obtained by scanning a single row from the initial state. -/
def headerCols (r : List String) : Cols :=
  (scanHeaderRow 0 0 (initCols, -1) r).1

/-- Every resolved index is either the -1 sentinel or a cell position, and the
instructor read (absent key = 0) is never negative. -/
def colsNN (c : Cols) : Prop :=
  -1 ≤ c.meeting ∧ -1 ≤ c.desc ∧ -1 ≤ c.startDate ∧ -1 ≤ c.endDate
    ∧ 0 ≤ c.instructor.getD 0

/-! ## Helper lemmas -/

theorem contains_true_of_mem {l : List Weekday} {a : Weekday} (h : a ∈ l) :
    l.contains a = true := by
  simp [List.elem_eq_mem, List.contains]
  exact h

theorem contains_false_of_not_mem {l : List Weekday} {a : Weekday} (h : a ∉ l) :
    l.contains a = false := by
  simp [List.elem_eq_mem, List.contains]
  exact h

theorem resolveLoop_of_mem {validDays : List Weekday} {d : Date} {n : Nat}
    (h : weekday d ∈ validDays) : resolveLoop validDays (n + 1) d = d := by
  unfold resolveLoop
  rw [contains_true_of_mem h]
  simp

theorem resolveLoop_of_none {validDays : List Weekday} :
    ∀ (n : Nat) (d : Date), (∀ k, k < n → weekday (addDays k d) ∉ validDays) →
      resolveLoop validDays n d = addDays n d := by
  intro n
  induction n with
  | zero => intro d _; rfl
  | succ m ih =>
    intro d hnone
    unfold resolveLoop
    rw [contains_false_of_not_mem (by simpa using hnone 0 (Nat.succ_pos m))]
    simp only [Bool.false_eq_true, if_false]
    exact ih (nextDay d) (fun k hk => hnone (k + 1) (Nat.succ_lt_succ hk))

/-! ## Claim theorems -/

/-- C4 (corrected): when the start date parses and no weekday of the seven
consecutive days starting there is in the valid set (possible only for the
empty set), convertStartDate does NOT return the original date: the loop body
advances the date on each of its 7 iterations, so the result is the parsed
date plus 7 days. -/
theorem claim_C4_amended (s : String) (d : Date) (validDays : List Weekday)
    (hp : goParseDate s = some d)
    (hnone : ∀ k, k < 7 → weekday (addDays k d) ∉ validDays) :
    convertStartDate s validDays = .ok (formatYYYYMMDD (addDays 7 d)) := by
  simp only [convertStartDate, hp]
  rw [resolveLoop_of_none 7 d hnone]

/-- C4 counterexample: for start date 01-06-25 (which parses to 2025-01-06,
printed 20250106) and the empty weekday set, the code returns 20250113, not
the original date unmodified. -/
theorem claim_C4_counterexample :
    goParseDate "01-06-25" = some ⟨2025, 1, 6⟩ ∧
    formatYYYYMMDD ⟨2025, 1, 6⟩ = "20250106" ∧
    convertStartDate "01-06-25" ([] : List Weekday) = .ok "20250113" ∧
    ("20250113" : String) ≠ "20250106" :=
  ⟨rfl, rfl, rfl, by decide⟩

/-- C4 witness: the amended theorem applied at start date 01-06-25 and the
empty weekday set. -/
theorem claim_C4_witness :
    convertStartDate "01-06-25" ([] : List Weekday) = .ok "20250113" :=
  claim_C4_amended "01-06-25" ⟨2025, 1, 6⟩ [] rfl (by decide)

/-- C8 (corrected): when the start date parses and its weekday is in the
valid set, convertStartDate returns that date unchanged (formatted), and the
date-level resolution step is idempotent on it; but the string-level
re-application is NOT the identity, because the output format YYYYMMDD is not
accepted by the MM-DD-YY input parser (see the counterexample). -/
theorem claim_C8_amended (s : String) (d : Date) (validDays : List Weekday)
    (hp : goParseDate s = some d) (hw : weekday d ∈ validDays) :
    convertStartDate s validDays = .ok (formatYYYYMMDD d) ∧
      resolveLoop validDays 7 (resolveLoop validDays 7 d) = resolveLoop validDays 7 d := by
  have hres : resolveLoop validDays 7 d = d := resolveLoop_of_mem hw
  constructor
  · simp only [convertStartDate, hp]
    rw [hres]
  · rw [hres, hres]

/-- C8 counterexample: resolving the function's own result again is not the
identity: the result 20250106 does not parse as MM-DD-YY, so re-application
returns a date error instead of the same string. -/
theorem claim_C8_counterexample :
    convertStartDate "01-06-25" [Weekday.monday] = .ok "20250106" ∧
    convertStartDate "20250106" [Weekday.monday] = .error (.dateError "20250106") :=
  ⟨rfl, rfl⟩

/-- C8 witness: the amended theorem applied at start date 01-06-25 (a Monday)
and the weekday set containing Monday. -/
theorem claim_C8_witness :
    convertStartDate "01-06-25" [Weekday.monday] = .ok (formatYYYYMMDD ⟨2025, 1, 6⟩) ∧
      resolveLoop [Weekday.monday] 7 (resolveLoop [Weekday.monday] 7 ⟨2025, 1, 6⟩) =
        resolveLoop [Weekday.monday] 7 ⟨2025, 1, 6⟩ :=
  claim_C8_amended "01-06-25" ⟨2025, 1, 6⟩ [Weekday.monday] rfl (by decide)

theorem GetIcal_of_empty {c : Course} (hc : c.Meeting = "") (dtstamp : String) :
    GetIcal c dtstamp = .ok "" := by
  simp [GetIcal, GetIcalEvent, hc]

theorem writeEvents_middle_empty {c : Course} (hc : c.Meeting = "") (dtstamp : String)
    (post : List Course) :
    ∀ pre, writeEvents dtstamp (pre ++ c :: post) = writeEvents dtstamp (pre ++ post) := by
  intro pre
  induction pre with
  | nil =>
    show writeEvents dtstamp (c :: post) = writeEvents dtstamp post
    rw [writeEvents, GetIcal_of_empty hc]
    rfl
  | cons a pre ih =>
    show writeEvents dtstamp (a :: (pre ++ c :: post)) = writeEvents dtstamp (a :: (pre ++ post))
    rw [writeEvents, writeEvents, ih]

/-- C5 (confirmed): a course with an empty meeting-pattern string synthesizes
no event and no error (GetIcal returns the empty block), and the document
written for a batch containing it is byte-for-byte the document written for
the batch without it, so every other course still produces its block. -/
theorem claim_C5 (c : Course) (hc : c.Meeting = "") (dtstamp : String)
    (pre post : List Course) :
    GetIcal c dtstamp = .ok "" ∧
      WriteIcalBuf (pre ++ c :: post) dtstamp = WriteIcalBuf (pre ++ post) dtstamp := by
  refine ⟨GetIcal_of_empty hc dtstamp, ?_⟩
  unfold WriteIcalBuf
  rw [writeEvents_middle_empty hc dtstamp post pre]

/-- C5 witness: the claim applied to a concrete batch of one real course plus
one empty-pattern course. -/
theorem claim_C5_witness :
    GetIcal ⟨"Seminar", "", "01-06-25", "05-02-25"⟩ "TS" = .ok "" ∧
      WriteIcalBuf [⟨"Calc", "M-W-F | 10:00 AM - 10:50 AM | Room 201", "01-06-25", "05-02-25"⟩,
          ⟨"Seminar", "", "01-06-25", "05-02-25"⟩] "TS" =
        WriteIcalBuf [⟨"Calc", "M-W-F | 10:00 AM - 10:50 AM | Room 201", "01-06-25", "05-02-25"⟩] "TS" :=
  claim_C5 ⟨"Seminar", "", "01-06-25", "05-02-25"⟩ rfl "TS"
    [⟨"Calc", "M-W-F | 10:00 AM - 10:50 AM | Room 201", "01-06-25", "05-02-25"⟩] []

set_option maxRecDepth 8192 in
/-- C7 (confirmed): for the spec's Example 1 course (pattern M-W-F, times
10:00 AM and 10:50 AM, room 201, start 01-06-25, end 05-02-25), synthesis
produces by-day MO,WE,FR in pattern order, keeps the start date 20250106
(already a Monday), converts the times to 100000 and 105000, stores until
date 20250502, and the rendered block carries UNTIL=20250502T235959. -/
theorem claim_C7 :
    GetIcalEvent ⟨"Calc", "M-W-F | 10:00 AM - 10:50 AM | Room 201", "01-06-25", "05-02-25"⟩ =
      .ok (some ⟨"CalcMO_WE_FR@wpi.edu", "20250106", "100000", "105000", "Calc",
        "Room 201", "MO,WE,FR", "20250502"⟩) ∧
    GetIcal ⟨"Calc", "M-W-F | 10:00 AM - 10:50 AM | Room 201", "01-06-25", "05-02-25"⟩
        "20250101T000000Z" =
      .ok ("BEGIN:VEVENT\nUID:CalcMO_WE_FR@wpi.edu\nDTSTAMP:20250101T000000Z\nDTSTART;TZID=America/New_York:20250106T100000\nDTEND;TZID=America/New_York:20250106T105000\nSUMMARY:Calc\nLOCATION:Room 201\nRRULE:FREQ=WEEKLY;BYDAY=MO,WE,FR;UNTIL=20250502T235959\nBEGIN:VALARM\nTRIGGER:-PT15M\nACTION:DISPLAY\nDESCRIPTION:Reminder - Calc starts soon\nEND:VALARM\nEND:VEVENT\n") :=
  ⟨rfl, rfl⟩

theorem applyHeaderCell_NN {i j : Nat} {acc : Cols × Int} {cell : String}
    (h : colsNN acc.1) : colsNN (applyHeaderCell i j acc cell).1 := by
  unfold applyHeaderCell
  unfold colsNN at h ⊢
  split_ifs <;> simp_all <;> omega

theorem scanHeaderRow_NN {i : Nat} :
    ∀ (r : List String) (j : Nat) (acc : Cols × Int), colsNN acc.1 →
      colsNN (scanHeaderRow i j acc r).1 := by
  intro r
  induction r with
  | nil => intro j acc h; exact h
  | cons cell cells ih => intro j acc h; exact ih (j + 1) _ (applyHeaderCell_NN h)

theorem getColumnsAux_NN :
    ∀ (rows : List (List String)) (i : Nat) (acc : Cols × Int), colsNN acc.1 →
      colsNN (getColumnsAux i acc rows).1 := by
  intro rows
  induction rows with
  | nil => intro i acc h; exact h
  | cons row rest ih =>
    intro i acc h
    rw [getColumnsAux]
    split
    · exact scanHeaderRow_NN row 0 acc h
    · exact ih (i + 1) _ (scanHeaderRow_NN row 0 acc h)

theorem missingColumns_nil {c : Cols} (h : missingColumns c = []) :
    c.meeting ≠ -1 ∧ c.desc ≠ -1 ∧ c.startDate ≠ -1 ∧ c.endDate ≠ -1 := by
  unfold missingColumns at h
  split_ifs at h <;> simp_all

theorem getColumns_ok_NN {rows : List (List String)} {cols : Cols} {startRow : Int}
    (h : getColumns rows = .ok (cols, startRow)) :
    0 ≤ cols.meeting ∧ 0 ≤ cols.desc ∧ 0 ≤ cols.startDate ∧ 0 ≤ cols.endDate ∧
      0 ≤ cols.instructor.getD 0 := by
  simp only [getColumns] at h
  split at h
  case isTrue hmiss =>
    have hNN : colsNN (getColumnsAux 0 (initCols, -1) rows).1 :=
      getColumnsAux_NN rows 0 (initCols, -1) (by simp [colsNN, initCols])
    injection h with h
    rw [h] at hmiss hNN
    dsimp only at hmiss hNN
    have hne := missingColumns_nil hmiss
    unfold colsNN at hNN
    omega
  case isFalse => exact absurd h (by simp)

theorem getCell_ok {row : List String} {i : Int} (h0 : 0 ≤ i) (hl : i.toNat < row.length) :
    getCell row i = .ok (row.getD i.toNat "") := by
  unfold getCell
  rw [dif_pos ⟨h0, hl⟩]
  rw [List.getD_eq_getElem _ _ hl, List.get_eq_getElem]

theorem buildCourses_eq (descC instC meetC startC endC : Int)
    (hd0 : 0 ≤ descC) (hi0 : 0 ≤ instC) (hm0 : 0 ≤ meetC) (hs0 : 0 ≤ startC)
    (he0 : 0 ≤ endC)
    (hd : descC ≤ endC) (hi : instC ≤ endC) (hm : meetC ≤ endC) (hs : startC ≤ endC) :
    ∀ l, buildCourses descC instC meetC startC endC l =
      .ok ((l.takeWhile fun row => decide (endC < (row.length : Int))).map
        (mkCourse descC instC meetC startC endC)) := by
  intro l
  induction l with
  | nil => rfl
  | cons row rest ih =>
    rw [buildCourses, List.takeWhile_cons]
    by_cases hlen : (row.length : Int) ≤ endC
    · rw [if_pos hlen, show decide (endC < (row.length : Int)) = false by simp; omega]
      simp
    · have hlt : endC < (row.length : Int) := by omega
      rw [if_neg hlen, show decide (endC < (row.length : Int)) = true by simpa using hlt]
      have hdl : descC.toNat < row.length := by omega
      have hil : instC.toNat < row.length := by omega
      have hml : meetC.toNat < row.length := by omega
      have hsl : startC.toNat < row.length := by omega
      have hel : endC.toNat < row.length := by omega
      rw [if_pos rfl]
      show (getCell row descC >>= fun d => _) = _
      rw [getCell_ok hd0 hdl]
      show (getCell row instC >>= fun inst => _) = _
      rw [getCell_ok hi0 hil]
      show (getCell row meetC >>= fun meet => _) = _
      rw [getCell_ok hm0 hml]
      show (getCell row startC >>= fun sd => _) = _
      rw [getCell_ok hs0 hsl]
      show (getCell row endC >>= fun ed => _) = _
      rw [getCell_ok he0 hel]
      show (buildCourses descC instC meetC startC endC rest >>= fun cs => _) = _
      rw [ih]
      rfl

/-- C1 (corrected): extraction stops at the first data row whose cell count
is at most the END DATE column index (not the highest required index); and
only under the extra assumption that every other read index (description,
meeting, start date, and the instructor read, which is 0 when no Instructor
header was found) is at most the End Date index does every consumed row
yield exactly one CourseRecord, the stopping row and all following rows
contributing none.  Without that assumption the loop indexes past the end of
a row and panics (see the counterexample). -/
theorem claim_C1_amended (rows : List (List String)) (cols : Cols) (startRow : Int)
    (h : getColumns rows = .ok (cols, startRow))
    (hd : cols.desc ≤ cols.endDate) (hm : cols.meeting ≤ cols.endDate)
    (hs : cols.startDate ≤ cols.endDate) (hi : cols.instructor.getD 0 ≤ cols.endDate) :
    GetCourses rows = .ok (((rows.drop startRow.toNat).takeWhile
        fun row => decide (cols.endDate < (row.length : Int))).map
      (mkCourse cols.desc (cols.instructor.getD 0) cols.meeting cols.startDate cols.endDate)) := by
  obtain ⟨hm0, hd0, hs0, he0, hi0⟩ := getColumns_ok_NN h
  simp only [GetCourses, h]
  exact buildCourses_eq cols.desc (cols.instructor.getD 0) cols.meeting cols.startDate
    cols.endDate hd0 hi0 hm0 hs0 he0 hd hi hm hs (rows.drop startRow.toNat)

/-- C1 counterexample: with the header permutation End Date, Course Listing,
Meeting Patterns, Start Date, the highest required column index is 3, so the
claim says extraction stops at the 2-cell data row and returns no records;
the code instead keeps the row (2 cells is more than the End Date index 0)
and panics indexing cell 2. -/
theorem claim_C1_counterexample :
    getColumns [["End Date", "Course Listing", "Meeting Patterns", "Start Date"], ["e", "c"]] =
      .ok (⟨2, 1, 3, 0, none⟩, 1) ∧
    GetCourses [["End Date", "Course Listing", "Meeting Patterns", "Start Date"], ["e", "c"]] =
      .error .indexOutOfRange :=
  ⟨rfl, rfl⟩

/-- C1 witness: the amended theorem applied to a sheet whose End Date column
is rightmost; the 1-cell row stops extraction and the row after it is never
consumed. -/
theorem claim_C1_witness :
    getColumns [["Instructor", "Course Listing", "Meeting Patterns", "Start Date", "End Date"],
        ["Dr. X", "a", "m", "s", "e"], ["short"], ["Dr. Y", "b", "m2", "s2", "e2"]] =
      .ok (⟨2, 1, 3, 4, some 0⟩, 1) ∧
    GetCourses [["Instructor", "Course Listing", "Meeting Patterns", "Start Date", "End Date"],
        ["Dr. X", "a", "m", "s", "e"], ["short"], ["Dr. Y", "b", "m2", "s2", "e2"]] =
      .ok [⟨"a - Dr. X", "m", "s", "e"⟩] :=
  ⟨rfl, (claim_C1_amended
    [["Instructor", "Course Listing", "Meeting Patterns", "Start Date", "End Date"],
      ["Dr. X", "a", "m", "s", "e"], ["short"], ["Dr. Y", "b", "m2", "s2", "e2"]]
    ⟨2, 1, 3, 4, some 0⟩ 1 rfl (by decide) (by decide) (by decide) (by decide)).trans rfl⟩

/-- C9 (corrected): GetCourses can index a kept row out of bounds (a Go
panic) when some read column index exceeds the End Date index, because the
length guard only checks the End Date index; under the amendment that the
End Date index is the largest read index (description, meeting, start date,
instructor-or-0), no out-of-bounds access happens. -/
theorem claim_C9_amended (rows : List (List String)) (cols : Cols) (startRow : Int)
    (h : getColumns rows = .ok (cols, startRow))
    (hd : cols.desc ≤ cols.endDate) (hm : cols.meeting ≤ cols.endDate)
    (hs : cols.startDate ≤ cols.endDate) (hi : cols.instructor.getD 0 ≤ cols.endDate) :
    GetCourses rows ≠ .error .indexOutOfRange := by
  obtain ⟨hm0, hd0, hs0, he0, hi0⟩ := getColumns_ok_NN h
  simp only [GetCourses, h]
  rw [buildCourses_eq cols.desc (cols.instructor.getD 0) cols.meeting cols.startDate
    cols.endDate hd0 hi0 hm0 hs0 he0 hd hi hm hs (rows.drop startRow.toNat)]
  simp

/-- C9 counterexample: a header row in which End Date is not the rightmost
required column; a 2-cell data row passes the length guard (2 is more than
the End Date index 0) but reading the Course Listing cell at index 2 is out
of bounds, so GetCourses hits the modelled panic. -/
theorem claim_C9_counterexample :
    getColumns [["End Date", "Meeting Patterns", "Course Listing", "Start Date"], ["x", "y"]] =
      .ok (⟨1, 2, 3, 0, none⟩, 1) ∧
    GetCourses [["End Date", "Meeting Patterns", "Course Listing", "Start Date"], ["x", "y"]] =
      .error .indexOutOfRange :=
  ⟨rfl, rfl⟩

/-- C9 witness: the amended theorem applied to a sheet whose End Date column
is rightmost. -/
theorem claim_C9_witness :
    GetCourses [["Course Listing", "Meeting Patterns", "Start Date", "End Date"],
        ["c", "m", "s", "e"], ["short"]] ≠ .error .indexOutOfRange :=
  claim_C9_amended [["Course Listing", "Meeting Patterns", "Start Date", "End Date"],
      ["c", "m", "s", "e"], ["short"]]
    ⟨1, 0, 2, 3, none⟩ 1 rfl (by decide) (by decide) (by decide) (by decide)

/-- C2 (code bug): when no Instructor header exists in the input, the Go map
read cols[INSTRUCTOR_COL] yields the zero value 0, so the loop reads each
kept row's cell 0 as the instructor and, whenever that cell is non-empty,
appends it to the description.  Here the Course Listing column is column 0,
so the description comes out as "CS 101 - CS 101" instead of the "CS 101"
the claim (and the spec's absent-tolerance rule) requires. -/
theorem claim_C2_bug :
    getColumns [["Course Listing", "Meeting Patterns", "Start Date", "End Date"],
        ["CS 101", "", "01-06-25", "05-02-25"]] = .ok (⟨1, 0, 2, 3, none⟩, 1) ∧
    GetCourses [["Course Listing", "Meeting Patterns", "Start Date", "End Date"],
        ["CS 101", "", "01-06-25", "05-02-25"]] =
      .ok [⟨"CS 101 - CS 101", "", "01-06-25", "05-02-25"⟩] :=
  ⟨rfl, rfl⟩

theorem applyHeaderCell_unrec {i j : Nat} {acc : Cols × Int} {cell : String}
    (h : recognizedCell cell = false) : applyHeaderCell i j acc cell = acc := by
  unfold recognizedCell at h
  simp only [Bool.or_eq_false_iff, decide_eq_false_iff_not] at h
  obtain ⟨⟨⟨⟨h1, h2⟩, h3⟩, h4⟩, h5⟩ := h
  unfold applyHeaderCell
  rw [if_neg h1, if_neg h2, if_neg h3, if_neg h4, if_neg h5]

theorem applyHeaderCell_fst {i ix j : Nat} {acc acc' : Cols × Int} {cell : String}
    (h : acc.1 = acc'.1) :
    (applyHeaderCell i j acc cell).1 = (applyHeaderCell ix j acc' cell).1 := by
  unfold applyHeaderCell
  split_ifs <;> simp [h]

theorem scanHeaderRow_fst {i ix : Nat} :
    ∀ (r : List String) (j : Nat) (acc acc' : Cols × Int), acc.1 = acc'.1 →
      (scanHeaderRow i j acc r).1 = (scanHeaderRow ix j acc' r).1 := by
  intro r
  induction r with
  | nil => intro j acc acc' h; exact h
  | cons cell cells ih => intro j acc acc' h; exact ih (j + 1) _ _ (applyHeaderCell_fst h)

theorem applyHeaderCell_snd {i j : Nat} {acc : Cols × Int} {cell : String} :
    (applyHeaderCell i j acc cell).2 =
      if recognizedCell cell then (i : Int) + 1 else acc.2 := by
  unfold applyHeaderCell recognizedCell
  split_ifs <;> simp_all

theorem scanHeaderRow_snd {i : Nat} :
    ∀ (r : List String) (j : Nat) (acc : Cols × Int),
      (scanHeaderRow i j acc r).2 =
        if r.any recognizedCell then (i : Int) + 1 else acc.2 := by
  intro r
  induction r with
  | nil => intro j acc; simp [scanHeaderRow]
  | cons cell cells ih =>
    intro j acc
    rw [scanHeaderRow, ih (j + 1), applyHeaderCell_snd]
    cases hc : recognizedCell cell <;> cases hcs : cells.any recognizedCell <;>
      simp [List.any_cons, hc, hcs]

theorem scanHeaderRow_unrec {i : Nat} :
    ∀ (r : List String) (j : Nat) (acc : Cols × Int),
      (∀ c ∈ r, recognizedCell c = false) → scanHeaderRow i j acc r = acc := by
  intro r
  induction r with
  | nil => intro j acc _; rfl
  | cons cell cells ih =>
    intro j acc h
    rw [scanHeaderRow, applyHeaderCell_unrec (h cell (List.mem_cons_self cell cells))]
    exact ih (j + 1) acc (fun c hc => h c (List.mem_cons_of_mem _ hc))

theorem getColumnsAux_pre :
    ∀ (pre : List (List String)) (i : Nat) (acc : Cols × Int) (rest : List (List String)),
      (∀ row ∈ pre, ∀ c ∈ row, recognizedCell c = false) → acc.2 = -1 →
      getColumnsAux i acc (pre ++ rest) = getColumnsAux (i + pre.length) acc rest := by
  intro pre
  induction pre with
  | nil => intro i acc rest _ _; rfl
  | cons row pre ih =>
    intro i acc rest h hsr
    rw [List.cons_append]
    simp only [getColumnsAux]
    rw [scanHeaderRow_unrec row 0 acc (h row (List.mem_cons_self row pre))]
    rw [if_neg (by simp [hsr])]
    rw [ih (i + 1) acc rest (fun r hr => h r (List.mem_cons_of_mem _ hr)) hsr]
    have : i + 1 + pre.length = i + (row :: pre).length := by
      simp [List.length_cons]
      omega
    rw [this]

theorem getColumnsAux_hit {i : Nat} {acc : Cols × Int} {r : List String}
    (hr : r.any recognizedCell = true) (post : List (List String)) :
    getColumnsAux i acc (r :: post) = scanHeaderRow i 0 acc r := by
  simp only [getColumnsAux]
  rw [if_pos]
  rw [scanHeaderRow_snd r 0 acc, hr, if_pos rfl]
  omega

theorem scanHeaderRow_field (fld : Cols → Int) (name : String)
    (h1 : ∀ (i j : Nat) (acc : Cols × Int), fld (applyHeaderCell i j acc name).1 = (j : Int))
    (h2 : ∀ (i j : Nat) (acc : Cols × Int) (cell : String), cell ≠ name →
      fld (applyHeaderCell i j acc cell).1 = fld acc.1) :
    ∀ (r : List String) (i j : Nat) (acc : Cols × Int),
      (fld (scanHeaderRow i j acc r).1 = -1) ↔ (fld acc.1 = -1 ∧ name ∉ r) := by
  intro r
  induction r with
  | nil => intro i j acc; simp [scanHeaderRow]
  | cons cell cells ih =>
    intro i j acc
    rw [scanHeaderRow]
    by_cases hc : cell = name
    · subst hc
      rw [ih]
      rw [h1 i j acc]
      constructor
      · rintro ⟨hj, _⟩; exfalso; omega
      · rintro ⟨_, hmem⟩; exact absurd (List.mem_cons_self cell cells) hmem
    · rw [ih, h2 i j acc cell hc]
      have hne : ¬(name = cell) := fun hx => hc hx.symm
      simp [List.mem_cons, hne]

theorem headerCols_meeting {r : List String} :
    ((headerCols r).meeting = -1) ↔ MEETING_COL ∉ r := by
  unfold headerCols
  rw [scanHeaderRow_field Cols.meeting MEETING_COL
    (by intro i j acc; unfold applyHeaderCell; rw [if_neg (by decide), if_pos rfl])
    (by intro i j acc cell hc; unfold applyHeaderCell; split_ifs <;> simp_all)]
  simp [initCols]

theorem headerCols_desc {r : List String} :
    ((headerCols r).desc = -1) ↔ DESC_COL ∉ r := by
  unfold headerCols
  rw [scanHeaderRow_field Cols.desc DESC_COL
    (by intro i j acc; unfold applyHeaderCell; rw [if_pos rfl])
    (by intro i j acc cell hc; unfold applyHeaderCell; split_ifs <;> simp_all)]
  simp [initCols]

theorem headerCols_startDate {r : List String} :
    ((headerCols r).startDate = -1) ↔ START_DATE_COL ∉ r := by
  unfold headerCols
  rw [scanHeaderRow_field Cols.startDate START_DATE_COL
    (by intro i j acc; unfold applyHeaderCell
        rw [if_neg (by decide), if_neg (by decide), if_pos rfl])
    (by intro i j acc cell hc; unfold applyHeaderCell; split_ifs <;> simp_all)]
  simp [initCols]

theorem headerCols_endDate {r : List String} :
    ((headerCols r).endDate = -1) ↔ END_DATE_COL ∉ r := by
  unfold headerCols
  rw [scanHeaderRow_field Cols.endDate END_DATE_COL
    (by intro i j acc; unfold applyHeaderCell
        rw [if_neg (by decide), if_neg (by decide), if_neg (by decide), if_pos rfl])
    (by intro i j acc cell hc; unfold applyHeaderCell; split_ifs <;> simp_all)]
  simp [initCols]

/-- C3 (corrected): the header scan stops at the FIRST row containing any
recognized column name (Instructor included), so extraction resolves its
indices from that row alone: it succeeds exactly when all four required
names occur in that row - not merely somewhere in the input - and then the
resolved indices depend only on that row's contents, not on its position
(the row index only shifts the returned data start row).  The claimed
direction "a name absent from every row implies failure" survives, but the
converse fails when the names are spread over several rows (see the
counterexample). -/
theorem claim_C3_amended (pre : List (List String)) (r : List String) (post : List (List String))
    (hpre : ∀ row ∈ pre, ∀ c ∈ row, recognizedCell c = false)
    (hr : r.any recognizedCell = true) :
    getColumns (pre ++ r :: post) =
      if MEETING_COL ∈ r ∧ DESC_COL ∈ r ∧ START_DATE_COL ∈ r ∧ END_DATE_COL ∈ r
      then .ok (headerCols r, (pre.length : Int) + 1)
      else .error (missingColumns (headerCols r)) := by
  have hchain : getColumnsAux 0 (initCols, -1) (pre ++ r :: post) =
      scanHeaderRow pre.length 0 (initCols, -1) r := by
    rw [getColumnsAux_pre pre 0 (initCols, -1) (r :: post) hpre rfl]
    rw [Nat.zero_add]
    exact getColumnsAux_hit hr post
  have hfst : (scanHeaderRow pre.length 0 (initCols, -1) r).1 = headerCols r :=
    scanHeaderRow_fst r 0 _ _ rfl
  have hsnd : (scanHeaderRow pre.length 0 (initCols, -1) r).2 = (pre.length : Int) + 1 := by
    rw [scanHeaderRow_snd r 0 _, hr, if_pos rfl]
  have hpair : scanHeaderRow pre.length 0 (initCols, -1) r =
      (headerCols r, (pre.length : Int) + 1) := by
    rw [Prod.ext_iff]
    exact ⟨hfst, hsnd⟩
  show (if missingColumns (getColumnsAux 0 (initCols, -1) (pre ++ r :: post)).1 = []
      then Except.ok (getColumnsAux 0 (initCols, -1) (pre ++ r :: post))
      else Except.error (missingColumns (getColumnsAux 0 (initCols, -1) (pre ++ r :: post)).1)) = _
  rw [hchain, hpair]
  by_cases hmem : MEETING_COL ∈ r ∧ DESC_COL ∈ r ∧ START_DATE_COL ∈ r ∧ END_DATE_COL ∈ r
  · have hm : ¬((headerCols r).meeting = -1) := fun hx => (headerCols_meeting.mp hx) hmem.1
    have hd : ¬((headerCols r).desc = -1) := fun hx => (headerCols_desc.mp hx) hmem.2.1
    have hs : ¬((headerCols r).startDate = -1) :=
      fun hx => (headerCols_startDate.mp hx) hmem.2.2.1
    have he : ¬((headerCols r).endDate = -1) := fun hx => (headerCols_endDate.mp hx) hmem.2.2.2
    rw [if_pos hmem, if_pos (by simp [missingColumns, hm, hd, hs, he])]
  · have hne : missingColumns (headerCols r) ≠ [] := by
      simp only [not_and_or] at hmem
      rcases hmem with hx | hx | hx | hx
      · simp [missingColumns, headerCols_meeting.mpr hx]
      · simp [missingColumns, headerCols_desc.mpr hx]
      · simp [missingColumns, headerCols_startDate.mpr hx]
      · simp [missingColumns, headerCols_endDate.mpr hx]
    rw [if_neg hmem, if_neg hne]

/-- C3 counterexample: every one of the four required names occurs in some
row of this input, yet getColumns fails, because the scan stops at the first
row containing a recognized name (here the row holding only Course Listing)
and three required names are missing from it. -/
theorem claim_C3_counterexample :
    (∀ name ∈ [MEETING_COL, DESC_COL, START_DATE_COL, END_DATE_COL],
      ∃ row ∈ [["Course Listing"],
        ["Meeting Patterns", "Start Date", "End Date", "Course Listing"]], name ∈ row) ∧
    getColumns [["Course Listing"],
        ["Meeting Patterns", "Start Date", "End Date", "Course Listing"]] =
      .error [MEETING_COL, START_DATE_COL, END_DATE_COL] :=
  ⟨by decide, rfl⟩

/-- C3 witness: the amended theorem applied to a one-row header preceded by
an unrecognized row; all four names sit in that row, so extraction succeeds
with the indices of that row and data start row 2. -/
theorem claim_C3_witness :
    getColumns [["x"], ["Meeting Patterns", "Course Listing", "Start Date", "End Date"]] =
      .ok (headerCols ["Meeting Patterns", "Course Listing", "Start Date", "End Date"],
        (1 : Int) + 1) :=
  (claim_C3_amended [["x"]] ["Meeting Patterns", "Course Listing", "Start Date", "End Date"] []
    (by decide) (by decide)).trans (by rw [if_pos (by decide)]; rfl)

theorem parseDays_mem_none {t : String} :
    ∀ (ts : List String), t ∈ ts → dayMap t = none →
      ∃ msg, parseDays ts = .error (.patternError msg) := by
  intro ts
  induction ts with
  | nil => intro h; cases h
  | cons a rest ih =>
    intro hmem hbad
    cases ha : dayMap a with
    | none => exact ⟨"unable to parse day: " ++ a, by rw [parseDays, ha]⟩
    | some cw =>
      have hne : t ≠ a := fun hx => by rw [hx, ha] at hbad; cases hbad
      have hrest : t ∈ rest := by
        rcases List.mem_cons.mp hmem with hx | hx
        · exact absurd hx hne
        · exact hx
      obtain ⟨msg, hmsg⟩ := ih hrest hbad
      refine ⟨msg, ?_⟩
      rw [parseDays, ha, hmsg]
      rfl

theorem GetIcalEvent_badday {c : Course}
    (hne : c.Meeting ≠ "")
    (hlen : ¬(goSplit '|' c.Meeting).length < 3)
    {t : String}
    (ht : t ∈ goSplit '-' (goTrimSpace ((goSplit '|' c.Meeting).getD 0 "")))
    (hbad : dayMap t = none) :
    ∃ msg, GetIcalEvent c = .error (.patternError msg) := by
  obtain ⟨msg, hmsg⟩ :=
    parseDays_mem_none (goSplit '-' (goTrimSpace ((goSplit '|' c.Meeting).getD 0 ""))) ht hbad
  refine ⟨msg, ?_⟩
  rw [GetIcalEvent, if_neg hne, if_neg hlen]
  show (parseDays (goSplit '-' (goTrimSpace ((goSplit '|' c.Meeting).getD 0 ""))) >>=
    fun days => _) = _
  rw [hmsg]
  rfl

theorem writeEvents_first_error {c : Course} {dtstamp : String} {e : IcalErr}
    (hc : GetIcal c dtstamp = .error e) (post : List Course) :
    ∀ (pre : List Course) (blocks : List String), runAll dtstamp pre = .ok blocks →
      writeEvents dtstamp (pre ++ c :: post) = (joinAll blocks, some e) := by
  intro pre
  induction pre with
  | nil =>
    intro blocks hb
    have : blocks = [] := by
      rw [runAll] at hb
      injection hb with hb
      exact hb.symm
    subst this
    show writeEvents dtstamp (c :: post) = ("", some e)
    rw [writeEvents, hc]
  | cons a pre ih =>
    intro blocks hb
    rw [runAll] at hb
    cases ha : GetIcal a dtstamp with
    | error ea => rw [ha] at hb; cases hb
    | ok s =>
      rw [ha] at hb
      cases hrest : runAll dtstamp pre with
      | error er =>
        rw [hrest] at hb
        cases hb
      | ok bs =>
        rw [hrest] at hb
        have hb2 : (Except.ok (s :: bs) : Except IcalErr (List String)) = Except.ok blocks := hb
        injection hb2 with hb2
        subst hb2
        show writeEvents dtstamp (a :: (pre ++ c :: post)) = (joinAll (s :: bs), some e)
        rw [writeEvents, ha, ih bs hrest]
        rfl

/-- C6 (confirmed): a course whose otherwise well-formed meeting pattern
contains a day letter outside the table (such as S) makes synthesis return a
pattern error, and the document write returns that first error: the output
consists of the calendar header and the blocks of the courses before it
only - no block for the failing course or any later course, and no
END:VCALENDAR footer. -/
theorem claim_C6 (c : Course) (dtstamp : String)
    (hne : c.Meeting ≠ "")
    (hlen : ¬(goSplit '|' c.Meeting).length < 3)
    (t : String)
    (ht : t ∈ goSplit '-' (goTrimSpace ((goSplit '|' c.Meeting).getD 0 "")))
    (hbad : dayMap t = none)
    (pre post : List Course) (blocks : List String)
    (hpre : runAll dtstamp pre = .ok blocks) :
    ∃ msg, GetIcal c dtstamp = .error (.patternError msg) ∧
      WriteIcalBuf (pre ++ c :: post) dtstamp =
        (CAL_HEADER ++ joinAll blocks, some (.patternError msg)) := by
  obtain ⟨msg, hmsg⟩ := GetIcalEvent_badday hne hlen ht hbad
  have hical : GetIcal c dtstamp = .error (.patternError msg) := by
    rw [GetIcal, hmsg]
  refine ⟨msg, hical, ?_⟩
  have hw := writeEvents_first_error hical post pre blocks hpre
  rw [WriteIcalBuf, hw]

set_option maxRecDepth 16384 in
/-- C6 witness: the claim applied to the batch [good course, S-M course]; the
output is the header plus the good course's block, the error is the pattern
error for the day letter S, and the footer is absent. -/
theorem claim_C6_witness :
    ∃ msg, GetIcal ⟨"Yoga", "S-M | 1:00 PM - 2:00 PM | Gym", "01-06-25", "05-02-25"⟩ "TS" =
        .error (.patternError msg) ∧
      WriteIcalBuf [⟨"Calc", "M-W-F | 10:00 AM - 10:50 AM | Room 201", "01-06-25", "05-02-25"⟩,
          ⟨"Yoga", "S-M | 1:00 PM - 2:00 PM | Gym", "01-06-25", "05-02-25"⟩] "TS" =
        (CAL_HEADER ++ joinAll ["BEGIN:VEVENT\nUID:CalcMO_WE_FR@wpi.edu\nDTSTAMP:TS\nDTSTART;TZID=America/New_York:20250106T100000\nDTEND;TZID=America/New_York:20250106T105000\nSUMMARY:Calc\nLOCATION:Room 201\nRRULE:FREQ=WEEKLY;BYDAY=MO,WE,FR;UNTIL=20250502T235959\nBEGIN:VALARM\nTRIGGER:-PT15M\nACTION:DISPLAY\nDESCRIPTION:Reminder - Calc starts soon\nEND:VALARM\nEND:VEVENT\n"],
          some (.patternError msg)) :=
  claim_C6 ⟨"Yoga", "S-M | 1:00 PM - 2:00 PM | Gym", "01-06-25", "05-02-25"⟩ "TS"
    (by decide) (by decide) "S" (by decide) rfl
    [⟨"Calc", "M-W-F | 10:00 AM - 10:50 AM | Room 201", "01-06-25", "05-02-25"⟩] []
    ["BEGIN:VEVENT\nUID:CalcMO_WE_FR@wpi.edu\nDTSTAMP:TS\nDTSTART;TZID=America/New_York:20250106T100000\nDTEND;TZID=America/New_York:20250106T105000\nSUMMARY:Calc\nLOCATION:Room 201\nRRULE:FREQ=WEEKLY;BYDAY=MO,WE,FR;UNTIL=20250502T235959\nBEGIN:VALARM\nTRIGGER:-PT15M\nACTION:DISPLAY\nDESCRIPTION:Reminder - Calc starts soon\nEND:VALARM\nEND:VEVENT\n"]
    rfl

theorem exceptBind_ok {ε α β : Type} {x : Except ε α} {f : α → Except ε β} {b : β}
    (h : x >>= f = .ok b) : ∃ a, x = .ok a ∧ f a = .ok b := by
  cases x with
  | error e =>
    exfalso
    have : (Except.error e : Except ε β) = .ok b := h
    cases this
  | ok a => exact ⟨a, rfl, h⟩

theorem dayMapOld_eq (t : String) : dayMapOld t = (dayMap t).map Prod.fst := by
  unfold dayMap dayMapOld
  split_ifs <;> rfl

theorem parseDaysOld_of {p : List String × List Weekday} :
    ∀ ts : List String, parseDays ts = .ok p → parseDaysOld ts = .ok p.1 := by
  intro ts
  induction ts generalizing p with
  | nil =>
    intro h
    rw [parseDays] at h
    injection h with h
    rw [← h]
    rfl
  | cons t rest ih =>
    intro h
    rw [parseDays] at h
    cases hd : dayMap t with
    | none => rw [hd] at h; cases h
    | some cw =>
      rw [hd] at h
      obtain ⟨q, hq, h⟩ := exceptBind_ok h
      have hq2 : (Except.ok (cw.1 :: q.1, cw.2 :: q.2) :
        Except IcalErr (List String × List Weekday)) = .ok p := h
      injection hq2 with hq2
      rw [parseDaysOld, dayMapOld_eq, hd]
      show (parseDaysOld rest >>= fun rest2 => Except.ok (cw.1 :: rest2)) = Except.ok p.1
      rw [ih hq]
      rw [← hq2]
      rfl

/-- C10 (corrected): the two GetIcal versions agree on SUMMARY, LOCATION and
the RRULE components (the by-day list and the until date) whenever both
succeed, but NOT on UID, DTSTART and DTEND as the claim states: the newer
version appends the by-day list to the description before sanitizing the
UID, resolves DTSTART to the first valid weekday instead of using the raw
start date, and parses DTEND's time from the second time token while the
older version reuses the first (start) token. -/
theorem claim_C10_amended (c : Course) (e eOld : VEvent)
    (h1 : GetIcalEvent c = .ok (some e)) (h2 : GetIcalEventOld c = .ok eOld) :
    e.summary = eOld.summary ∧ e.location = eOld.location ∧ e.byDay = eOld.byDay ∧
      e.untilDate = eOld.untilDate := by
  rw [GetIcalEvent] at h1
  split at h1
  · exact absurd h1 (by simp)
  · dsimp only at h1
    split at h1
    · cases h1
    · rename_i hseg
      obtain ⟨days, hdays, h1⟩ := exceptBind_ok h1
      obtain ⟨endD, hendD, h1⟩ := exceptBind_ok h1
      obtain ⟨startD, hstartD, h1⟩ := exceptBind_ok h1
      split at h1
      · cases h1
      · rename_i htimes
        obtain ⟨st, hst, h1⟩ := exceptBind_ok h1
        obtain ⟨et, het, h1⟩ := exceptBind_ok h1
        injection h1 with h1
        injection h1 with h1
        subst h1
        rw [GetIcalEventOld] at h2
        simp only [if_neg hseg, if_neg htimes] at h2
        obtain ⟨codes, hcodes, h2⟩ := exceptBind_ok h2
        obtain ⟨st2, hst2, h2⟩ := exceptBind_ok h2
        obtain ⟨et2, het2, h2⟩ := exceptBind_ok h2
        obtain ⟨endD2, hendD2, h2⟩ := exceptBind_ok h2
        obtain ⟨startD2, hstartD2, h2⟩ := exceptBind_ok h2
        injection h2 with h2
        subst h2
        have hcodes2 := parseDaysOld_of _ hdays
        rw [hcodes] at hcodes2
        injection hcodes2 with hcodes2
        rw [hendD] at hendD2
        injection hendD2 with hendD2
        exact ⟨rfl, rfl, by rw [hcodes2], by rw [hendD2]⟩

set_option maxRecDepth 8192 in
/-- C10 counterexample: for a course both versions parse, the versions
disagree on the UID (the newer embeds the by-day list, the older does not)
and on the DTEND time (the older reuses the start-time token for the end
time), so the produced event blocks do not agree on UID and DTEND even with
a fixed DTSTAMP. -/
theorem claim_C10_counterexample :
    GetIcalEvent ⟨"Chem", "M-W-F | 10:00 AM - 10:50 AM | Room 1", "01-06-25", "05-02-25"⟩ =
      .ok (some ⟨"ChemMO_WE_FR@wpi.edu", "20250106", "100000", "105000", "Chem", "Room 1",
        "MO,WE,FR", "20250502"⟩) ∧
    GetIcalEventOld ⟨"Chem", "M-W-F | 10:00 AM - 10:50 AM | Room 1", "01-06-25", "05-02-25"⟩ =
      .ok ⟨"Chem@wpi.edu", "20250106", "100000", "100000", "Chem", "Room 1",
        "MO,WE,FR", "20250502"⟩ ∧
    ("ChemMO_WE_FR@wpi.edu" : String) ≠ "Chem@wpi.edu" ∧
    ("105000" : String) ≠ "100000" :=
  ⟨rfl, rfl, by decide, by decide⟩

set_option maxRecDepth 8192 in
/-- C10 witness: the amended agreement applied to a concrete course both
versions accept; summary, location, by-day and until date coincide. -/
theorem claim_C10_witness :
    ("Chem" : String) = "Chem" ∧ ("Room 1" : String) = "Room 1" ∧
      ("MO,WE,FR" : String) = "MO,WE,FR" ∧ ("20250502" : String) = "20250502" :=
  claim_C10_amended ⟨"Chem", "M-W-F | 10:00 AM - 10:50 AM | Room 1", "01-06-25", "05-02-25"⟩
    ⟨"ChemMO_WE_FR@wpi.edu", "20250106", "100000", "105000", "Chem", "Room 1",
      "MO,WE,FR", "20250502"⟩
    ⟨"Chem@wpi.edu", "20250106", "100000", "100000", "Chem", "Room 1",
      "MO,WE,FR", "20250502"⟩
    rfl rfl

end WpiSched
